import Mathlib

/-!
Verification of the incremental PDF-corpus synchronization and chunking
pipeline (llm_lawbot): change detection, manifest bookkeeping, the
orchestrator loop of scripts/check_updates.py, the chunker of app/ingest.py
and the HTTP retry helper of app/crawler_qld.py, shallowly embedded in Lean.
Python strings are modelled as Lean strings (lists of characters); network
and filesystem effects are modelled as explicit per-item oracle inputs.
-/

namespace LawBot

/-! ## Definitions: shallow embedding of the chunker (app/ingest.py),
the manifest and orchestrator (scripts/check_updates.py) and the
HTTP retry helper (app/crawler_qld.py) -/

/-- A paragraph or chunk: `(start_page, end_page, text)` as in ingest.py.
Paragraphs and chunks share this shape in the source (plain tuples). -/
structure Chunk where
  start_page : Nat
  end_page : Nat
  text : String
deriving DecidableEq

/-- Number of characters, Python `len` on a string. -/
def pyLen (s : String) : Nat := s.data.length

/-- Python `str.strip()`: drop leading and trailing whitespace characters. -/
def pyStrip (s : String) : String :=
  ⟨((s.data.dropWhile Char.isWhitespace).reverse.dropWhile Char.isWhitespace).reverse⟩

/-- Python `s[-n:]` under the guard `0 < n` used in ingest.py line 101:
the last `n` characters of `s` (all of `s` when `n ≥ len(s)`). -/
def pyTakeRight (s : String) (n : Nat) : String :=
  ⟨s.data.drop (s.data.length - n)⟩

/-- The loop body of `merge_paras_to_chunks` (ingest.py lines 85-117),
recursing over the remaining paragraphs with the accumulator
`(buf_start, buf_end, buf_text)` carried as a `Chunk` (empty text marks the
initial empty accumulator, exactly as `buf_text == ""` does in the source;
the page fields of an empty accumulator are never observable). -/
def mergeGo (chunk_size overlap : Nat) (buf : Chunk) : List Chunk → List Chunk
  | [] =>
    if pyStrip buf.text = "" then []
    else [⟨buf.start_page, buf.end_page, pyStrip buf.text⟩]
  | p :: ps =>
    if buf.text = "" then
      mergeGo chunk_size overlap ⟨p.start_page, p.end_page, p.text⟩ ps
    else if chunk_size < pyLen buf.text + 1 + pyLen p.text then
      if 0 < overlap ∧ overlap < pyLen buf.text then
        ⟨buf.start_page, buf.end_page, pyStrip buf.text⟩ ::
          mergeGo chunk_size overlap
            ⟨min buf.end_page p.start_page, max buf.end_page p.end_page,
             pyTakeRight buf.text overlap ++ "\n" ++ p.text⟩ ps
      else
        ⟨buf.start_page, buf.end_page, pyStrip buf.text⟩ ::
          mergeGo chunk_size overlap ⟨p.start_page, p.end_page, p.text⟩ ps
    else
      mergeGo chunk_size overlap
        ⟨buf.start_page, max buf.end_page p.end_page, buf.text ++ "\n" ++ p.text⟩ ps

/-- `merge_paras_to_chunks` (ingest.py lines 77-117). -/
def merge_paras_to_chunks (paras : List Chunk) (chunk_size overlap : Nat) : List Chunk :=
  mergeGo chunk_size overlap ⟨0, 0, ""⟩ paras

/-- Splitter for Python `re.split(r"\n\x7b2,\x7d", txt)` (ingest.py line 71):
split on each maximal run of two or more newlines. `cur` is the current part
in reverse, `nl` counts newlines seen since the last non-newline character. -/
def splitBlankGo (cur : List Char) (nl : Nat) : List Char → List (List Char)
  | [] =>
    if 2 ≤ nl then [cur.reverse, []]
    else [(List.replicate nl '\n' ++ cur).reverse]
  | c :: cs =>
    if c = '\n' then splitBlankGo cur (nl + 1) cs
    else if 2 ≤ nl then cur.reverse :: splitBlankGo [c] 0 cs
    else splitBlankGo (c :: (List.replicate nl '\n' ++ cur)) 0 cs

/-- `re.split(r"\n\x7b2,\x7d", txt)` on a string. -/
def splitBlank (s : String) : List String :=
  (splitBlankGo [] 0 s.data).map (fun l => ⟨l⟩)

/-- `paragraphs_from_pages` (ingest.py lines 61-74): split each page's text
on blank lines, strip the parts, drop the empty ones, and tag each part with
its page index as both start and end page. -/
def paragraphs_from_pages (pages : List (Nat × String)) : List Chunk :=
  pages.flatMap (fun pg =>
    if pg.2 = "" then []
    else (((splitBlank pg.2).map pyStrip).filter (fun p => p ≠ "")).map
      (fun p => ⟨pg.1, pg.1, p⟩))

/-- The page enumeration of `extract_pages` (ingest.py lines 45-58): page
`i` of the document carries index `i` (0-based) together with its extracted
text. The PDF text extraction itself (pypdf) and `normalize_text` are
external to the claims checked here, so the per-page texts are taken as
input. -/
def pagesOfTexts (texts : List String) : List (Nat × String) :=
  texts.enum

/-- 600 repetitions of the character a (Scenario D, paragraph 1). -/
def rep600a : String := ⟨List.replicate 600 'a'⟩

/-- 600 repetitions of the character b (Scenario D, paragraph 2). -/
def rep600b : String := ⟨List.replicate 600 'b'⟩

/-- 600 repetitions of the character c (Scenario D, paragraph 3). -/
def rep600c : String := ⟨List.replicate 600 'c'⟩

/-- One manifest record per source URL (check_updates.py lines 197-204):
the last known synchronized state. Records written by the script always
carry all six fields; `content_length` is the integer parsed from the
Content-Length header (0 when absent). -/
structure ManifestRecord where
  filename : String
  etag : String
  last_modified : String
  content_length : Nat
  sha256 : String
  updated_at : String
deriving DecidableEq

/-- `decide_change` (check_updates.py lines 86-102). `old = none` models the
empty dict returned by `items.get(url, \x7b\x7d)` for an unknown URL. -/
def decide_change (old : Option ManifestRecord) (new_etag new_lm : String)
    (new_len : Nat) (force : Bool) : Bool :=
  match old with
  | none => true
  | some o =>
    if force = true then true
    else if new_etag ≠ "" ∧ new_etag ≠ o.etag then true
    else if new_lm ≠ "" ∧ new_lm ≠ o.last_modified then true
    else if new_len ≠ 0 ∧ new_len ≠ o.content_length then true
    else false

/-- The whole persisted manifest (check_updates.py line 58): source URL,
timestamp of the last check, and the url-to-record mapping, modelled as an
association list with Python-dict update semantics. -/
structure Manifest where
  source_url : String
  checked_at : String
  items : List (String × ManifestRecord)
deriving DecidableEq

/-- `MAIN_URL` (crawler_qld.py line 27), the default source listing page. -/
def MAIN_URL : String :=
  "https://www.business.qld.gov.au/industries/mining-energy-water/resources/safety-health/mining/legislation-standards/recognised-standards"

/-- `load_manifest` (check_updates.py lines 51-58): `fileExists` models
`os.path.exists(MANIFEST)` and `parsed` the result of `json.load` (`none`
when parsing raises). -/
def load_manifest (fileExists : Bool) (parsed : Option Manifest) : Manifest :=
  if fileExists = true then
    match parsed with
    | some m => m
    | none => ⟨MAIN_URL, "", []⟩
  else ⟨MAIN_URL, "", []⟩

/-- Python dict lookup `items.get(url)` on the association list. -/
def lookupItem : List (String × ManifestRecord) → String → Option ManifestRecord
  | [], _ => none
  | (k, v) :: rest, u => if k = u then some v else lookupItem rest u

/-- Python dict assignment `items[url] = record` on the association list:
replace in place when the key exists, append otherwise. -/
def setItem : List (String × ManifestRecord) → String → ManifestRecord →
    List (String × ManifestRecord)
  | [], u, r => [(u, r)]
  | (k, v) :: rest, u, r =>
    if k = u then (u, r) :: rest else (k, v) :: setItem rest u r

/-- The per-run, per-item observations of the loop body: the headers
returned by `head_meta` (which never raises), the local file name computed
by `build_local_name`, whether the local file already exists, whether
`download` succeeds, the sha256 of the downloaded bytes, whether
`add_documents` inside `reembed_pdf` raises, and the `time.strftime`
timestamp. -/
structure ItemInput where
  url : String
  filename : String
  etag : String
  last_modified : String
  content_length : Nat
  localExists : Bool
  downloadOk : Bool
  sha : String
  embedOk : Bool
  now : String

/-- The four counters of the run summary (check_updates.py line 151). -/
structure Counters where
  added : Nat
  updated : Nat
  skipped : Nat
  failed : Nat
deriving DecidableEq

/-- Which of the four counters a processed item increments. -/
inductive Outcome where
  | added
  | updated
  | skipped
  | failed
deriving DecidableEq

/-- Increment the counter selected by the outcome. -/
def bump (c : Counters) : Outcome → Counters
  | .added => { c with added := c.added + 1 }
  | .updated => { c with updated := c.updated + 1 }
  | .skipped => { c with skipped := c.skipped + 1 }
  | .failed => { c with failed := c.failed + 1 }

/-- The fresh record written at check_updates.py lines 197-204. -/
def newRecord (it : ItemInput) : ManifestRecord :=
  ⟨it.filename, it.etag, it.last_modified, it.content_length, it.sha, it.now⟩

/-- The refreshed record of the sha-unchanged path (lines 181-189):
`record = dict(record_old)` updated with the six new field values. -/
def refreshRecord (old : ManifestRecord) (it : ItemInput) : ManifestRecord :=
  { old with
    filename := it.filename
    etag := it.etag
    last_modified := it.last_modified
    content_length := it.content_length
    sha256 := it.sha
    updated_at := it.now }

/-- One iteration of the per-item loop (check_updates.py lines 153-210).
Returns the outcome and the updated in-memory items mapping; `none` models
an exception escaping the loop body (the only uncaught one: a failure of
`add_documents` inside `reembed_pdf`, line 194). -/
def processItem (force : Bool) (items : List (String × ManifestRecord))
    (it : ItemInput) : Option (Outcome × List (String × ManifestRecord)) :=
  if decide_change (lookupItem items it.url) it.etag it.last_modified
      it.content_length force = false ∧ it.localExists = true then
    some (Outcome.skipped, items)
  else if it.downloadOk = false then
    some (Outcome.failed, items)
  else
    match lookupItem items it.url with
    | some old =>
      if force = false ∧ it.sha = old.sha256 then
        some (Outcome.skipped, setItem items it.url (refreshRecord old it))
      else if it.embedOk = true then
        some (Outcome.updated, setItem items it.url (newRecord it))
      else none
    | none =>
      if it.embedOk = true then
        some (Outcome.added, setItem items it.url (newRecord it))
      else none

/-- The whole per-item loop: fold `processItem` over the listed items,
threading the counters and the in-memory manifest items; `none` when an
uncaught exception aborts the run. -/
def runItems (force : Bool) : List ItemInput → Counters →
    List (String × ManifestRecord) →
    Option (Counters × List (String × ManifestRecord))
  | [], c, items => some (c, items)
  | it :: rest, c, items =>
    match processItem force items it with
    | none => none
    | some (o, items') => runItems force rest (bump c o) items'

/-- A fresh item: new URL, download succeeds, indexing succeeds. -/
def itemAddA : ItemInput :=
  ⟨"https://example.org/a.pdf", "a.pdf", "e1", "Mon, 01 Jan 2024", 10,
   false, true, "sha1", true, "2024-01-02 00:00:00"⟩

/-- An item whose Indexing Gateway `add` raises during re-embedding:
new URL, download succeeds, `embedOk = false`. -/
def itemEmbedFail : ItemInput :=
  ⟨"https://example.org/b.pdf", "b.pdf", "e2", "Tue, 02 Jan 2024", 20,
   false, true, "sha2", false, "2024-01-03 00:00:00"⟩

/-- An item with a failing download. -/
def itemDownFail : ItemInput :=
  ⟨"https://example.org/c.pdf", "c.pdf", "e3", "Wed, 03 Jan 2024", 30,
   false, false, "", true, "2024-01-04 00:00:00"⟩

/-- An HTTP response as far as the metadata path reads it: status code and
the three relevant headers (absent headers are `none`). -/
structure HttpResp where
  status : Nat
  etag : Option String
  last_modified : Option String
  content_length : Option String
deriving DecidableEq

/-- Python `s.strip(ch)`: drop the character `ch` from both ends. -/
def pyStripChar (s : String) (ch : Char) : String :=
  ⟨((s.data.dropWhile (fun c => c = ch)).reverse.dropWhile (fun c => c = ch)).reverse⟩

/-- Python `int(s)` on a plain digit string (the Content-Length header):
`none` models the ValueError on a non-numeric header. -/
def pyParseNat (s : String) : Option Nat :=
  if s.data ≠ [] ∧ s.data.all Char.isDigit then
    some (s.data.foldl (fun n c => n * 10 + (c.toNat - 48)) 0)
  else none

/-- The header extraction of `head_meta` (check_updates.py lines 76-82):
ETag stripped of quotes and whitespace, Last-Modified stripped, and
Content-Length parsed as a number with 0 on absence or parse failure. -/
def headersTriple (r : HttpResp) : String × String × Nat :=
  (pyStrip (pyStripChar (r.etag.getD "") '"'),
   pyStrip (r.last_modified.getD ""),
   (pyParseNat (r.content_length.getD "0")).getD 0)

/-- `head_meta` (check_updates.py lines 66-84): one HEAD request; on a
non-200 status one fallback GET; any exception in either request yields
`("", "", 0)`. `Except.error` models a raised requests exception. -/
def head_meta (headResult getResult : Except String HttpResp) :
    String × String × Nat :=
  match headResult with
  | .error _ => ("", "", 0)
  | .ok r =>
    if r.status ≠ 200 then
      match getResult with
      | .error _ => ("", "", 0)
      | .ok r2 => headersTriple r2
    else headersTriple r

/-- The metadata path of `head_meta` viewed over a sequence of available
request attempts: the code performs the HEAD as attempt 0 and the fallback
GET as attempt 1, and never touches any further attempt. -/
def head_meta_seq (attempts : Nat → Except String HttpResp) :
    String × String × Nat :=
  head_meta (attempts 0) (attempts 1)

/-- Modelled from the spec: the Fetcher retry contract for the metadata
path (spec section 4.2 / section 7), absent from check_updates.py: up to 3
attempts, each attempt either returns the response's header triple or
fails, and after exhausting the retries the last error encountered is
surfaced rather than discarded. -/
def fetch_metadata_spec_go (attempts : Nat → Except String HttpResp) :
    String → Nat → Nat → Except String (String × String × Nat)
  | lastErr, _, 0 => .error lastErr
  | _, i, fuel + 1 =>
    match attempts i with
    | .ok r => .ok (headersTriple r)
    | .error e => fetch_metadata_spec_go attempts e (i + 1) fuel

/-- Modelled from the spec: `fetch_metadata` with the section 4.2 retry
policy (3 attempts, last error surfaced). -/
def fetch_metadata_spec (attempts : Nat → Except String HttpResp) :
    Except String (String × String × Nat) :=
  fetch_metadata_spec_go attempts "" 0 3

/-- The attempt sequence of the C9 counterexample: the first request times
out, every later attempt would succeed with fresh headers. -/
def cexAttempts : Nat → Except String HttpResp := fun n =>
  match n with
  | 0 => .error "timeout"
  | _ => .ok ⟨200, some "abc", some "Mon, 01 Jan 2024", some "10"⟩

/-- `http_get` (crawler_qld.py lines 35-47), the retrying GET used for the
listing page: `i` is the 0-based attempt index, `fuel` the remaining
attempts, `lastEx` the last error seen, and the second component collects
the `time.sleep` delays `backoff ** (i + 1) * 0.3` (in seconds, as exact
rationals with backoff = 1.8 = 9/5 and scale = 0.3 = 3/10) taken after
each unsuccessful attempt. An attempt yields an exception or a status code
with a body; a non-200 status becomes the error string `HTTP <status>`. -/
def http_get_go (attempts : Nat → Except String (Nat × String)) :
    Nat → Nat → Option String → List ℚ → Except String String × List ℚ
  | _, 0, lastEx, delays => (.error (lastEx.getD "Unknown HTTP error"), delays)
  | i, fuel + 1, _, delays =>
    match attempts i with
    | .ok sb =>
      if sb.1 = 200 then (.ok sb.2, delays)
      else
        http_get_go attempts (i + 1) fuel (some ("HTTP " ++ toString sb.1))
          (delays ++ [(9/5 : ℚ) ^ (i + 1) * (3/10)])
    | .error e =>
      http_get_go attempts (i + 1) fuel (some e)
        (delays ++ [(9/5 : ℚ) ^ (i + 1) * (3/10)])

/-- `http_get` with its default of 3 retries, starting with no recorded
error and no delays taken. -/
def http_get (attempts : Nat → Except String (Nat × String)) (retries : Nat) :
    Except String String × List ℚ :=
  http_get_go attempts 0 retries none []

/-! ## Theorems -/

theorem dropWhile_length_le (p : Char → Bool) (l : List Char) :
    (l.dropWhile p).length ≤ l.length := by
  induction l with
  | nil => simp
  | cons a l ih =>
    rw [List.dropWhile_cons]
    split
    · exact Nat.le_trans ih (by simp)
    · simp

theorem pyLen_pyStrip_le (s : String) : pyLen (pyStrip s) ≤ pyLen s := by
  have h2 := dropWhile_length_le Char.isWhitespace s.data
  have h1 := dropWhile_length_le Char.isWhitespace
    ((s.data.dropWhile Char.isWhitespace).reverse)
  rw [List.length_reverse] at h1
  show (((s.data.dropWhile Char.isWhitespace).reverse.dropWhile
    Char.isWhitespace).reverse).length ≤ s.data.length
  rw [List.length_reverse]
  omega

theorem pyLen_append (s t : String) : pyLen (s ++ t) = pyLen s + pyLen t := by
  simp [pyLen, String.data_append]

theorem pyLen_newline : pyLen "\n" = 1 := rfl

theorem pyLen_empty : pyLen "" = 0 := rfl

theorem pyLen_join (s t : String) : pyLen (s ++ "\n" ++ t) = pyLen s + 1 + pyLen t := by
  rw [pyLen_append, pyLen_append, pyLen_newline]

theorem pyLen_pyTakeRight (s : String) (n : Nat) (h : n ≤ pyLen s) :
    pyLen (pyTakeRight s n) = n := by
  simp only [pyLen, pyTakeRight, List.length_drop] at *
  omega

theorem pyStrip_empty : pyStrip "" = "" := rfl

theorem mk_ne_empty {l : List Char} (h : l ≠ []) : (⟨l⟩ : String) ≠ "" := by
  intro he
  exact h (congrArg String.data he)

theorem ne_empty_of_pyLen {s : String} (h : pyLen s ≠ 0) : s ≠ "" := by
  intro he
  rw [he] at h
  exact h rfl

theorem dropWhile_eq_self_of_head {l : List Char}
    (h : ∀ c, l.head? = some c → c.isWhitespace = false) :
    l.dropWhile Char.isWhitespace = l := by
  cases l with
  | nil => rfl
  | cons a t => rw [List.dropWhile_cons, if_neg (by simp [h a rfl])]

theorem stripList_eq_self {l : List Char}
    (h1 : l.dropWhile Char.isWhitespace = l)
    (h2 : l.reverse.dropWhile Char.isWhitespace = l.reverse) :
    ((l.dropWhile Char.isWhitespace).reverse.dropWhile Char.isWhitespace).reverse = l := by
  rw [h1, h2, List.reverse_reverse]

theorem pyStrip_eq_self {s : String}
    (h1 : ∀ c, s.data.head? = some c → c.isWhitespace = false)
    (h2 : ∀ c, s.data.getLast? = some c → c.isWhitespace = false) :
    pyStrip s = s := by
  obtain ⟨l⟩ := s
  have h2' : ∀ c, l.reverse.head? = some c → c.isWhitespace = false := by
    intro c hc
    rw [List.head?_reverse] at hc
    exact h2 c hc
  exact congrArg String.mk
    (stripList_eq_self (dropWhile_eq_self_of_head h1) (dropWhile_eq_self_of_head h2'))

theorem mergeGo_nil_emit (chunk_size overlap bs be : Nat) (btxt : String)
    (h : pyStrip btxt ≠ "") :
    mergeGo chunk_size overlap ⟨bs, be, btxt⟩ [] = [⟨bs, be, pyStrip btxt⟩] := by
  simp [mergeGo, h]

theorem mergeGo_seed (chunk_size overlap bs be qs qe : Nat) (qtxt : String)
    (ps : List Chunk) :
    mergeGo chunk_size overlap ⟨bs, be, ""⟩ (⟨qs, qe, qtxt⟩ :: ps) =
      mergeGo chunk_size overlap ⟨qs, qe, qtxt⟩ ps := by
  simp [mergeGo]

theorem mergeGo_append_step (chunk_size overlap bs be qs qe : Nat) (btxt qtxt : String)
    (ps : List Chunk) (hne : btxt ≠ "")
    (hfit : pyLen btxt + 1 + pyLen qtxt ≤ chunk_size) :
    mergeGo chunk_size overlap ⟨bs, be, btxt⟩ (⟨qs, qe, qtxt⟩ :: ps) =
      mergeGo chunk_size overlap ⟨bs, max be qe, btxt ++ "\n" ++ qtxt⟩ ps := by
  simp [mergeGo, hne, Nat.not_lt.mpr hfit]

theorem mergeGo_close_carry (chunk_size overlap bs be qs qe : Nat) (btxt qtxt : String)
    (ps : List Chunk) (hne : btxt ≠ "")
    (hbig : chunk_size < pyLen btxt + 1 + pyLen qtxt)
    (hov : 0 < overlap) (hlt : overlap < pyLen btxt) :
    mergeGo chunk_size overlap ⟨bs, be, btxt⟩ (⟨qs, qe, qtxt⟩ :: ps) =
      ⟨bs, be, pyStrip btxt⟩ ::
        mergeGo chunk_size overlap
          ⟨min be qs, max be qe, pyTakeRight btxt overlap ++ "\n" ++ qtxt⟩ ps := by
  simp [mergeGo, hne, hbig, hov, hlt]

theorem mergeGo_close_plain (chunk_size overlap bs be qs qe : Nat) (btxt qtxt : String)
    (ps : List Chunk) (hne : btxt ≠ "")
    (hbig : chunk_size < pyLen btxt + 1 + pyLen qtxt)
    (hno : ¬(0 < overlap ∧ overlap < pyLen btxt)) :
    mergeGo chunk_size overlap ⟨bs, be, btxt⟩ (⟨qs, qe, qtxt⟩ :: ps) =
      ⟨bs, be, pyStrip btxt⟩ ::
        mergeGo chunk_size overlap ⟨qs, qe, qtxt⟩ ps := by
  simp [mergeGo, hne, hbig, hno]

theorem pyLen_rep600a : pyLen rep600a = 600 := List.length_replicate 600 'a'

theorem pyLen_rep600b : pyLen rep600b = 600 := List.length_replicate 600 'b'

theorem pyLen_rep600c : pyLen rep600c = 600 := List.length_replicate 600 'c'

theorem data_ab : (rep600a ++ "\n" ++ rep600b).data =
    (List.replicate 600 'a' ++ ['\n']) ++ List.replicate 600 'b' := by
  rw [String.data_append, String.data_append]
  rfl

theorem pyLen_ab : pyLen (rep600a ++ "\n" ++ rep600b) = 1201 := by
  rw [pyLen_join, pyLen_rep600a, pyLen_rep600b]

theorem takeRight_ab :
    pyTakeRight (rep600a ++ "\n" ++ rep600b) 150 = ⟨List.replicate 150 'b'⟩ := by
  unfold pyTakeRight
  apply congrArg String.mk
  rw [data_ab]
  have hlen : ((List.replicate 600 'a' ++ ['\n']) ++ List.replicate 600 'b').length = 1201 := by
    rw [List.length_append, List.length_append, List.length_replicate, List.length_replicate]
    rfl
  rw [hlen]
  have h1051 : (1201 : Nat) - 150 = (List.replicate 600 'a' ++ ['\n']).length + 450 := by
    rw [List.length_append, List.length_replicate]
    rfl
  rw [h1051, List.drop_append, List.drop_replicate]

theorem head_ab : (rep600a ++ "\n" ++ rep600b).data.head? = some 'a' := by
  rw [data_ab, show List.replicate 600 'a' = 'a' :: List.replicate 599 'a' from rfl]
  rfl

theorem getLast_ab : (rep600a ++ "\n" ++ rep600b).data.getLast? = some 'b' := by
  rw [data_ab, List.getLast?_append, List.getLast?_replicate, if_neg (by omega)]
  rfl

theorem strip_ab : pyStrip (rep600a ++ "\n" ++ rep600b) = rep600a ++ "\n" ++ rep600b := by
  apply pyStrip_eq_self
  · intro c hc
    rw [head_ab] at hc
    cases hc
    rfl
  · intro c hc
    rw [getLast_ab] at hc
    cases hc
    rfl

theorem ab_ne : (rep600a ++ "\n" ++ rep600b) ≠ "" := by
  apply ne_empty_of_pyLen
  rw [pyLen_ab]
  omega

theorem data_t2 : (pyTakeRight (rep600a ++ "\n" ++ rep600b) 150 ++ "\n" ++ rep600c).data =
    (List.replicate 150 'b' ++ ['\n']) ++ List.replicate 600 'c' := by
  rw [takeRight_ab, String.data_append, String.data_append]
  rfl

theorem head_t2 : (pyTakeRight (rep600a ++ "\n" ++ rep600b) 150 ++ "\n" ++ rep600c).data.head? =
    some 'b' := by
  rw [data_t2, show List.replicate 150 'b' = 'b' :: List.replicate 149 'b' from rfl]
  rfl

theorem getLast_t2 :
    (pyTakeRight (rep600a ++ "\n" ++ rep600b) 150 ++ "\n" ++ rep600c).data.getLast? =
      some 'c' := by
  rw [data_t2, List.getLast?_append, List.getLast?_replicate, if_neg (by omega)]
  rfl

theorem strip_t2 : pyStrip (pyTakeRight (rep600a ++ "\n" ++ rep600b) 150 ++ "\n" ++ rep600c) =
    pyTakeRight (rep600a ++ "\n" ++ rep600b) 150 ++ "\n" ++ rep600c := by
  apply pyStrip_eq_self
  · intro c hc
    rw [head_t2] at hc
    cases hc
    rfl
  · intro c hc
    rw [getLast_t2] at hc
    cases hc
    rfl

theorem t2_ne : (pyTakeRight (rep600a ++ "\n" ++ rep600b) 150 ++ "\n" ++ rep600c) ≠ "" := by
  apply ne_empty_of_pyLen
  rw [pyLen_join]
  omega

theorem rep600a_ne : rep600a ≠ "" := by
  apply ne_empty_of_pyLen
  rw [pyLen_rep600a]
  omega

theorem merge_scenarioD :
    merge_paras_to_chunks [⟨0,0,rep600a⟩, ⟨0,0,rep600b⟩, ⟨1,1,rep600c⟩] 1500 150 =
      [⟨0,0, rep600a ++ "\n" ++ rep600b⟩,
       ⟨0,1, pyTakeRight (rep600a ++ "\n" ++ rep600b) 150 ++ "\n" ++ rep600c⟩] := by
  unfold merge_paras_to_chunks
  refine (mergeGo_seed 1500 150 0 0 0 0 rep600a [⟨0,0,rep600b⟩, ⟨1,1,rep600c⟩]).trans ?_
  refine (mergeGo_append_step 1500 150 0 0 0 0 rep600a rep600b [⟨1,1,rep600c⟩]
    rep600a_ne
    (by rw [pyLen_rep600a, pyLen_rep600b]; omega)).trans ?_
  refine (mergeGo_close_carry 1500 150 0 (max 0 0) 1 1
    (rep600a ++ "\n" ++ rep600b) rep600c [] ab_ne
    (by rw [pyLen_ab, pyLen_rep600c]; omega)
    (by omega)
    (by rw [pyLen_ab]; omega)).trans ?_
  have e4 := mergeGo_nil_emit 1500 150 (min (max 0 0) 1) (max (max 0 0) 1)
    (pyTakeRight (rep600a ++ "\n" ++ rep600b) 150 ++ "\n" ++ rep600c)
    (by rw [strip_t2]; exact t2_ne)
  refine (congrArg (fun l =>
    (⟨0, max 0 0, pyStrip (rep600a ++ "\n" ++ rep600b)⟩ : Chunk) :: l) e4).trans ?_
  have c1 : (⟨0, max 0 0, pyStrip (rep600a ++ "\n" ++ rep600b)⟩ : Chunk) =
      ⟨0, 0, rep600a ++ "\n" ++ rep600b⟩ := by
    rw [strip_ab]
    simp
  have c2 : (⟨min (max 0 0) 1, max (max 0 0) 1,
        pyStrip (pyTakeRight (rep600a ++ "\n" ++ rep600b) 150 ++ "\n" ++ rep600c)⟩ : Chunk) =
      ⟨0, 1, pyTakeRight (rep600a ++ "\n" ++ rep600b) 150 ++ "\n" ++ rep600c⟩ := by
    rw [strip_t2]
    simp
  rw [c1, c2]

/-- C2: in the chunk-merging pass, when appending the next paragraph `p`
would make the accumulator exceed `chunk_size` (and the overlap is
positive, as in the configured `CHUNK_OVERLAP = 150`, and the accumulator
text carries no leading or trailing whitespace, as holds for stripped
paragraphs): if the closed chunk's text is longer than `overlap`, the new
accumulator is seeded with the last `overlap` characters of the closed
chunk's text joined to `p.text` by a single newline, with
`start_page = min(closed.end_page, p.start_page)` and
`end_page = max(closed.end_page, p.end_page)`; if it is shorter than
`overlap` the new accumulator is seeded with just `p`. In particular,
for three paragraphs of 600 characters on pages 0, 0, 1 with
`chunk_size = 1500` and `overlap = 150`, the output is chunk 1 =
paragraphs 1+2 (pages 0-0) and chunk 2 = the last 150 characters of
chunk 1 plus paragraph 3 (pages 0-1). -/
theorem merge_overlap_carry_seed :
    (∀ (chunk_size overlap : Nat) (buf p : Chunk) (ps : List Chunk),
      buf.text ≠ "" → pyStrip buf.text = buf.text → 0 < overlap →
      chunk_size < pyLen buf.text + 1 + pyLen p.text →
      ((overlap < pyLen buf.text →
          mergeGo chunk_size overlap buf (p :: ps) =
            ⟨buf.start_page, buf.end_page, buf.text⟩ ::
              mergeGo chunk_size overlap
                ⟨min buf.end_page p.start_page, max buf.end_page p.end_page,
                 pyTakeRight buf.text overlap ++ "\n" ++ p.text⟩ ps) ∧
       (pyLen buf.text < overlap →
          mergeGo chunk_size overlap buf (p :: ps) =
            ⟨buf.start_page, buf.end_page, buf.text⟩ ::
              mergeGo chunk_size overlap ⟨p.start_page, p.end_page, p.text⟩ ps))) ∧
    merge_paras_to_chunks [⟨0,0,rep600a⟩, ⟨0,0,rep600b⟩, ⟨1,1,rep600c⟩] 1500 150 =
      [⟨0,0, rep600a ++ "\n" ++ rep600b⟩,
       ⟨0,1, pyTakeRight (rep600a ++ "\n" ++ rep600b) 150 ++ "\n" ++ rep600c⟩] := by
  constructor
  · intro chunk_size overlap buf p ps hne hstrip hov hbig
    obtain ⟨bs, be, bt⟩ := buf
    obtain ⟨qs, qe, qt⟩ := p
    have hne' : bt ≠ "" := hne
    have hstrip' : pyStrip bt = bt := hstrip
    have hbig' : chunk_size < pyLen bt + 1 + pyLen qt := hbig
    constructor
    · intro hlt
      have hlt' : overlap < pyLen bt := hlt
      rw [mergeGo_close_carry chunk_size overlap bs be qs qe bt qt ps hne' hbig' hov hlt',
        hstrip']
    · intro hlt
      have hlt' : pyLen bt < overlap := hlt
      rw [mergeGo_close_plain chunk_size overlap bs be qs qe bt qt ps hne' hbig'
        (fun h => absurd h.2 (by omega)), hstrip']
  · exact merge_scenarioD

/-- Invariant for the merging loop: if every paragraph text is at most
`chunk_size` characters and the accumulator text is at most
`chunk_size + overlap + 1` characters, every emitted chunk text is at most
`chunk_size + overlap + 1` characters. -/
theorem mergeGo_text_bound (chunk_size overlap : Nat) (paras : List Chunk) :
    ∀ buf : Chunk, pyLen buf.text ≤ chunk_size + overlap + 1 →
    (∀ q ∈ paras, pyLen q.text ≤ chunk_size) →
    ∀ c ∈ mergeGo chunk_size overlap buf paras,
      pyLen c.text ≤ chunk_size + overlap + 1 := by
  induction paras with
  | nil =>
    intro buf hb _ c hc
    obtain ⟨bs, be, bt⟩ := buf
    have hb' : pyLen bt ≤ chunk_size + overlap + 1 := hb
    by_cases h : pyStrip bt = ""
    · simp [mergeGo, h] at hc
    · rw [mergeGo_nil_emit chunk_size overlap bs be bt h, List.mem_singleton] at hc
      subst hc
      exact le_trans (pyLen_pyStrip_le bt) hb'
  | cons p ps ih =>
    intro buf hb hp c hc
    obtain ⟨bs, be, bt⟩ := buf
    obtain ⟨qs, qe, qt⟩ := p
    have hb' : pyLen bt ≤ chunk_size + overlap + 1 := hb
    have hp0 : pyLen qt ≤ chunk_size := hp ⟨qs, qe, qt⟩ (List.mem_cons_self _ _)
    have hps := fun q hq => hp q (List.mem_cons_of_mem _ hq)
    by_cases h1 : bt = ""
    · subst h1
      rw [mergeGo_seed] at hc
      exact ih ⟨qs, qe, qt⟩ (le_trans hp0 (by omega)) hps c hc
    · by_cases h2 : chunk_size < pyLen bt + 1 + pyLen qt
      · by_cases h3 : 0 < overlap ∧ overlap < pyLen bt
        · rw [mergeGo_close_carry chunk_size overlap bs be qs qe bt qt ps h1 h2 h3.1 h3.2,
            List.mem_cons] at hc
          rcases hc with rfl | hc
          · exact le_trans (pyLen_pyStrip_le bt) hb'
          · refine ih _ ?_ hps c hc
            show pyLen (pyTakeRight bt overlap ++ "\n" ++ qt) ≤ _
            rw [pyLen_join, pyLen_pyTakeRight bt overlap (le_of_lt h3.2)]
            omega
        · rw [mergeGo_close_plain chunk_size overlap bs be qs qe bt qt ps h1 h2 h3,
            List.mem_cons] at hc
          rcases hc with rfl | hc
          · exact le_trans (pyLen_pyStrip_le bt) hb'
          · exact ih ⟨qs, qe, qt⟩ (le_trans hp0 (by omega)) hps c hc
      · rw [mergeGo_append_step chunk_size overlap bs be qs qe bt qt ps h1 (by omega)] at hc
        refine ih _ ?_ hps c hc
        show pyLen (bt ++ "\n" ++ qt) ≤ _
        rw [pyLen_join]
        omega

/-- C3 counterexample: with `chunk_size = 5` and `overlap = 2`, the two
paragraphs `aaaaa` and `bbbbb` (each of length 5 ≤ chunk_size) produce the
chunk `aa\nbbbbb` of length 8 > chunk_size + overlap = 7: the joining
newline pushes the carry-over chunk one character past the claimed bound. -/
theorem merge_chunk_bound_cex :
    (∀ q ∈ [(⟨0,0,"aaaaa"⟩ : Chunk), ⟨0,0,"bbbbb"⟩], pyLen q.text ≤ 5) ∧
    ∃ c ∈ merge_paras_to_chunks [(⟨0,0,"aaaaa"⟩ : Chunk), ⟨0,0,"bbbbb"⟩] 5 2,
      5 + 2 < pyLen c.text := by
  decide

/-- C3 (amended): for every paragraph sequence whose paragraph texts are
individually at most `chunk_size` characters, every chunk produced by the
merge pass has text of length at most `chunk_size + overlap + 1`: the
overlap carry-over plus the single newline joining it to the next
paragraph is the only allowed excess over `chunk_size`. -/
theorem merge_chunk_bound_amended (chunk_size overlap : Nat) (paras : List Chunk)
    (hp : ∀ q ∈ paras, pyLen q.text ≤ chunk_size) :
    ∀ c ∈ merge_paras_to_chunks paras chunk_size overlap,
      pyLen c.text ≤ chunk_size + overlap + 1 :=
  mergeGo_text_bound chunk_size overlap paras ⟨0, 0, ""⟩
    (by rw [show (Chunk.mk 0 0 "").text = "" from rfl, pyLen_empty]; omega) hp

/-- C3 witness: the amended bound applied to the counterexample run. -/
theorem merge_chunk_bound_amended_witness :
    pyLen (Chunk.mk 0 0 "aa\nbbbbb").text ≤ 5 + 2 + 1 :=
  merge_chunk_bound_amended 5 2 [⟨0,0,"aaaaa"⟩, ⟨0,0,"bbbbb"⟩] (by decide)
    ⟨0,0,"aa\nbbbbb"⟩ (by decide)

/-- Every paragraph produced by `paragraphs_from_pages` over the enumerated
page sequence carries the page index it came from as both start and end
page, and that index is a valid page index of the document. -/
theorem paragraphs_from_pages_enum_mem {texts : List String} {q : Chunk}
    (hq : q ∈ paragraphs_from_pages (pagesOfTexts texts)) :
    q.start_page = q.end_page ∧ q.end_page < texts.length := by
  unfold paragraphs_from_pages pagesOfTexts at hq
  rw [List.mem_flatMap] at hq
  obtain ⟨pg, hpg, hq⟩ := hq
  obtain ⟨i, t⟩ := pg
  have hi : i < texts.length := by
    obtain ⟨_, h2, _⟩ := List.mem_enumFrom (show (i, t) ∈ List.enumFrom 0 texts from hpg)
    omega
  by_cases ht : t = ""
  · simp [ht] at hq
  · simp only [ht, if_neg, ite_false] at hq
    rw [List.mem_map] at hq
    obtain ⟨s, _, rfl⟩ := hq
    exact ⟨rfl, hi⟩

/-- Invariant for the merging loop: well-formed page ranges (start ≤ end,
both below the page count) are preserved from the paragraphs and the
accumulator to every emitted chunk. -/
theorem mergeGo_pages (chunk_size overlap n : Nat) (paras : List Chunk) :
    ∀ buf : Chunk,
    (buf.text ≠ "" → buf.start_page ≤ buf.end_page ∧ buf.start_page < n ∧ buf.end_page < n) →
    (∀ q ∈ paras, q.start_page ≤ q.end_page ∧ q.start_page < n ∧ q.end_page < n) →
    ∀ c ∈ mergeGo chunk_size overlap buf paras,
      c.start_page ≤ c.end_page ∧ c.start_page < n ∧ c.end_page < n := by
  induction paras with
  | nil =>
    intro buf hb _ c hc
    obtain ⟨bs, be, bt⟩ := buf
    by_cases h : pyStrip bt = ""
    · simp [mergeGo, h] at hc
    · rw [mergeGo_nil_emit chunk_size overlap bs be bt h, List.mem_singleton] at hc
      subst hc
      exact hb (fun he => h (he ▸ pyStrip_empty))
  | cons p ps ih =>
    intro buf hb hp c hc
    obtain ⟨bs, be, bt⟩ := buf
    obtain ⟨qs, qe, qt⟩ := p
    have hp0 : qs ≤ qe ∧ qs < n ∧ qe < n := hp ⟨qs, qe, qt⟩ (List.mem_cons_self _ _)
    have hps := fun q hq => hp q (List.mem_cons_of_mem _ hq)
    by_cases h1 : bt = ""
    · subst h1
      rw [mergeGo_seed] at hc
      exact ih ⟨qs, qe, qt⟩ (fun _ => hp0) hps c hc
    · have hb' : bs ≤ be ∧ bs < n ∧ be < n := hb h1
      by_cases h2 : chunk_size < pyLen bt + 1 + pyLen qt
      · by_cases h3 : 0 < overlap ∧ overlap < pyLen bt
        · rw [mergeGo_close_carry chunk_size overlap bs be qs qe bt qt ps h1 h2 h3.1 h3.2,
            List.mem_cons] at hc
          rcases hc with rfl | hc
          · exact hb'
          · refine ih ⟨min be qs, max be qe, _⟩ (fun _ => ?_) hps c hc
            refine ⟨?_, ?_, ?_⟩ <;> simp only [Chunk.start_page, Chunk.end_page] <;> omega
        · rw [mergeGo_close_plain chunk_size overlap bs be qs qe bt qt ps h1 h2 h3,
            List.mem_cons] at hc
          rcases hc with rfl | hc
          · exact hb'
          · exact ih ⟨qs, qe, qt⟩ (fun _ => hp0) hps c hc
      · rw [mergeGo_append_step chunk_size overlap bs be qs qe bt qt ps h1 (by omega)] at hc
        refine ih ⟨bs, max be qe, _⟩ (fun _ => ?_) hps c hc
        refine ⟨?_, ?_, ?_⟩ <;> simp only [Chunk.start_page, Chunk.end_page] <;> omega

/-- C7: every chunk produced by the pipeline (paragraph splitting over the
enumerated pages, then merging) has `start_page ≤ end_page`, and both pages
are valid 0-based indices into the document's page sequence. -/
theorem chunk_page_range (texts : List String) (chunk_size overlap : Nat) (c : Chunk)
    (hc : c ∈ merge_paras_to_chunks (paragraphs_from_pages (pagesOfTexts texts))
      chunk_size overlap) :
    c.start_page ≤ c.end_page ∧
      c.start_page < texts.length ∧ c.end_page < texts.length := by
  refine mergeGo_pages chunk_size overlap texts.length _ ⟨0, 0, ""⟩
    (fun h => absurd rfl h) ?_ c hc
  intro q hq
  obtain ⟨h1, h2⟩ := paragraphs_from_pages_enum_mem hq
  omega

/-- C7 witness: a two-page document whose produced chunk spans pages 0-1. -/
theorem chunk_page_range_witness :
    (Chunk.mk 0 1 "hello\nworld\nbye").start_page ≤ (Chunk.mk 0 1 "hello\nworld\nbye").end_page ∧
    (Chunk.mk 0 1 "hello\nworld\nbye").start_page < (["hello\n\nworld", "bye"] : List String).length ∧
    (Chunk.mk 0 1 "hello\nworld\nbye").end_page < (["hello\n\nworld", "bye"] : List String).length :=
  chunk_page_range ["hello\n\nworld", "bye"] 1500 150 ⟨0, 1, "hello\nworld\nbye"⟩ (by decide)

/-- C1: `decide_change` returns true exactly when force is set or no old
record exists, or one of the three header fields is present (non-empty /
non-zero) and differs from the stored value; otherwise it returns false.
Since every matching clause returns true, first-match-wins ordering and
this disjunction describe the same function. -/
theorem decide_change_policy (old : Option ManifestRecord) (e lm : String)
    (len : Nat) (force : Bool) :
    decide_change old e lm len force = true ↔
      (force = true ∨ old = none) ∨
      ∃ o, old = some o ∧
        ((e ≠ "" ∧ e ≠ o.etag) ∨ (lm ≠ "" ∧ lm ≠ o.last_modified) ∨
         (len ≠ 0 ∧ len ≠ o.content_length)) := by
  cases old with
  | none => simp [decide_change]
  | some o =>
    simp only [decide_change]
    split_ifs with h1 h2 h3 h4
    all_goals simp_all
    all_goals tauto

/-- C8: when the manifest file does not exist or fails to parse, loading
returns the empty skeleton: the default source URL, empty `checked_at`,
and an empty items mapping; the load itself is total and never fails. -/
theorem load_manifest_fallback (fileExists : Bool) (parsed : Option Manifest)
    (h : fileExists = false ∨ parsed = none) :
    load_manifest fileExists parsed = ⟨MAIN_URL, "", []⟩ := by
  rcases h with h | h
  · subst h
    simp [load_manifest]
  · subst h
    simp [load_manifest]

/-- C8 witness: a missing manifest file. -/
theorem load_manifest_fallback_witness :
    load_manifest false none = ⟨MAIN_URL, "", []⟩ :=
  load_manifest_fallback false none (Or.inl rfl)

/-- Counter conservation along the loop: a completed run adds exactly one
counter increment per processed item. -/
theorem runItems_counter_sum (force : Bool) (its : List ItemInput) :
    ∀ (c : Counters) (items : List (String × ManifestRecord))
      (res : Counters × List (String × ManifestRecord)),
    runItems force its c items = some res →
    res.1.added + res.1.updated + res.1.skipped + res.1.failed =
      c.added + c.updated + c.skipped + c.failed + its.length := by
  induction its with
  | nil =>
    intro c items res h
    simp only [runItems, Option.some.injEq] at h
    subst h
    simp
  | cons it rest ih =>
    intro c items res h
    simp only [runItems] at h
    cases hpi : processItem force items it with
    | none => rw [hpi] at h; simp at h
    | some oi =>
      rw [hpi] at h
      obtain ⟨o, items'⟩ := oi
      simp only at h
      have := ih (bump c o) items' res h
      cases o <;> simp [bump] at this ⊢ <;> omega

/-- C4: whenever the run completes (no uncaught exception aborts the loop),
the four reported counters sum to the number of listed items: each listed
item increments exactly one of added, updated, skipped, failed. -/
theorem run_counter_conservation (force : Bool) (its : List ItemInput)
    (items : List (String × ManifestRecord))
    (res : Counters × List (String × ManifestRecord))
    (h : runItems force its ⟨0, 0, 0, 0⟩ items = some res) :
    res.1.added + res.1.updated + res.1.skipped + res.1.failed = its.length := by
  have hs := runItems_counter_sum force its ⟨0, 0, 0, 0⟩ items res h
  simpa using hs

/-- C4 witness: a one-item run that completes with added = 1. -/
theorem run_counter_conservation_witness :
    (⟨1, 0, 0, 0⟩ : Counters).added + (⟨1, 0, 0, 0⟩ : Counters).updated +
      (⟨1, 0, 0, 0⟩ : Counters).skipped + (⟨1, 0, 0, 0⟩ : Counters).failed =
      ([itemAddA] : List ItemInput).length :=
  run_counter_conservation false [itemAddA] []
    (⟨1, 0, 0, 0⟩, [("https://example.org/a.pdf", newRecord itemAddA)])
    (by decide)

/-- C5 (code bug): an Indexing Gateway failure is not caught per-item:
`reembed_pdf` (check_updates.py lines 125-132) and the call site (line 194)
have no try/except, so the exception escapes the loop body and aborts the
whole run; no counters are reported and the manifest is never saved,
contradicting the per-item error containment the spec requires. -/
theorem embed_failure_aborts_run :
    processItem false [] itemEmbedFail = none ∧
    runItems false [itemEmbedFail] ⟨0, 0, 0, 0⟩ [] = none := by
  decide

/-- C6: when an old record exists, force is off, and the sha256 of the
freshly downloaded bytes equals the stored one, the item is counted as
skipped, re-embedding is skipped (the result does not depend on the
indexing step), and the record is nonetheless refreshed: filename, etag,
last_modified, content_length, sha256 and updated_at all take the new
values. -/
theorem false_positive_skip_refreshes (items : List (String × ManifestRecord))
    (it : ItemInput) (old : ManifestRecord)
    (hold : lookupItem items it.url = some old)
    (hdl : ¬(decide_change (lookupItem items it.url) it.etag it.last_modified
        it.content_length false = false ∧ it.localExists = true))
    (hok : it.downloadOk = true)
    (hsha : it.sha = old.sha256) :
    processItem false items it =
      some (Outcome.skipped, setItem items it.url (refreshRecord old it)) := by
  unfold processItem
  rw [if_neg hdl, if_neg (by simp [hok]), hold]
  simp [hsha]

/-- C6 witness: a concrete false-positive change (etag drifted, bytes
identical) refreshes the record and counts as skipped. -/
theorem false_positive_skip_refreshes_witness :
    processItem false
      [("https://example.org/a.pdf",
        ⟨"a.pdf", "abc", "Mon, 01 Jan 2024", 10, "H1", "2024-01-01 00:00:00"⟩)]
      ⟨"https://example.org/a.pdf", "a.pdf", "xyz", "Mon, 01 Jan 2024", 10,
       true, true, "H1", true, "2024-02-01 00:00:00"⟩ =
      some (Outcome.skipped,
        [("https://example.org/a.pdf",
          ⟨"a.pdf", "xyz", "Mon, 01 Jan 2024", 10, "H1", "2024-02-01 00:00:00"⟩)]) :=
  false_positive_skip_refreshes _ _
    ⟨"a.pdf", "abc", "Mon, 01 Jan 2024", 10, "H1", "2024-01-01 00:00:00"⟩
    (by decide) (by decide) (by decide) (by decide)

/-- C10: when the byte download of an item fails, the run increments only
the failed counter and threads the in-memory manifest items through
unchanged: the rest of the run continues from the same mapping, so no
field of any record is created or modified for that URL. -/
theorem download_failure_preserves_manifest (force : Bool)
    (items : List (String × ManifestRecord)) (it : ItemInput)
    (hneed : decide_change (lookupItem items it.url) it.etag it.last_modified
        it.content_length force = true ∨ it.localExists = false)
    (hdl : it.downloadOk = false) :
    ∀ (rest : List ItemInput) (c : Counters),
      runItems force (it :: rest) c items =
        runItems force rest ⟨c.added, c.updated, c.skipped, c.failed + 1⟩ items := by
  intro rest c
  have hpi : processItem force items it = some (Outcome.failed, items) := by
    unfold processItem
    rw [if_neg (by
      rintro ⟨h1, h2⟩
      rcases hneed with h | h
      · rw [h] at h1; exact absurd h1 (by simp)
      · rw [h] at h2; exact absurd h2 (by simp)), if_pos hdl]
  simp only [runItems, hpi]
  rfl

/-- C10 witness: a one-item run whose download fails only bumps failed. -/
theorem download_failure_preserves_manifest_witness :
    runItems false [itemDownFail] ⟨0, 0, 0, 0⟩ [] =
      runItems false [] ⟨0, 0, 0, 1⟩ [] :=
  download_failure_preserves_manifest false [] itemDownFail (Or.inr rfl) rfl [] ⟨0, 0, 0, 0⟩

/-- C9 counterexample: on a transient failure of the first metadata
request, `head_meta` returns the empty triple `("", "", 0)` without using
the second attempt and without surfacing any error, whereas the retrying
metadata fetch the claim describes would return the headers of the
successful second attempt — the two disagree at this input, so metadata
retrieval is neither retried nor is its last error surfaced. -/
theorem head_meta_no_retry_cex :
    head_meta_seq cexAttempts = ("", "", 0) ∧
    fetch_metadata_spec cexAttempts = .ok ("abc", "Mon, 01 Jan 2024", 10) ∧
    (("", "", 0) : String × String × Nat) ≠ ("abc", "Mon, 01 Jan 2024", 10) :=
  ⟨by decide, by
    have h : fetch_metadata_spec cexAttempts =
        Except.ok (headersTriple ⟨200, some "abc", some "Mon, 01 Jan 2024", some "10"⟩) := rfl
    rw [h]
    exact congrArg Except.ok (by decide), by decide⟩

/-- C9 (amended): the retry-with-backoff behaviour lives in the crawler's
listing-page fetch `http_get`, not in the per-document metadata path: when
all three attempts fail, `http_get` raises the last error encountered
after sleeping `1.8^1·0.3`, `1.8^2·0.3`, `1.8^3·0.3` seconds between
attempts; the per-document metadata fetch `head_meta` performs a single
attempt (with a GET fallback only on a non-200 HEAD) and on any raised
error returns the empty triple `("", "", 0)` instead of retrying or
surfacing the error. -/
theorem http_retry_amended :
    (∀ (attempts : Nat → Except String (Nat × String)) (e0 e1 e2 : String),
      attempts 0 = .error e0 → attempts 1 = .error e1 → attempts 2 = .error e2 →
      http_get attempts 3 =
        (.error e2,
         [(9/5 : ℚ) ^ 1 * (3/10), (9/5 : ℚ) ^ 2 * (3/10), (9/5 : ℚ) ^ 3 * (3/10)])) ∧
    (∀ (hr gr : Except String HttpResp) (e : String),
      hr = .error e → head_meta hr gr = ("", "", 0)) := by
  constructor
  · intro attempts e0 e1 e2 h0 h1 h2
    simp [http_get, http_get_go, h0, h1, h2]
  · intro hr gr e he
    subst he
    rfl

end LawBot
